import Mathlib

/-!
Verification of the chart-specification builders in `strawberryfields/plot.py`.

The Python module builds Plot.ly JSON-like nested dictionaries.  We embed the
dictionaries that actually occur as Lean structures whose fields are the keys
the program reads or writes; a key that is absent in some dictionary states is
an `Option` field holding `none`.  Numeric values are embedded as `ℚ` (the
program only moves them around; no float rounding is relevant to the claims),
except for the Wigner color bounds `±1/np.pi`, embedded as real numbers.
Python list indexing, which raises `IndexError` when out of range, is embedded
by `pyGet`/`pySet` returning `Except String`; the builders are therefore
`Except`-valued, mirroring the fact that a call either returns the populated
chart or raises.
-/

/-- Source line 38: the module-level constant `textcolor = '#787878'`. -/
def textcolor : String := "#787878"

/-- A Plot.ly font dictionary: the source uses `{"size": 16}` (annotation font)
and `{'color': textcolor}` (layout font). -/
@[ext]
structure PlotFont where
  color : Option String := none
  size : Option ℚ := none
deriving DecidableEq

/-- The `margin` dictionary of the default bar chart template. -/
@[ext]
structure PlotMargin where
  l : ℚ
  r : ℚ
  b : ℚ
  t : ℚ
  pad : ℚ
deriving DecidableEq

/-- An x/y-axis dictionary of the bar chart.  The default template's axes carry
`gridcolor/type/autorange/title/fixedrange`; the axes written by
`generate_fock_chart` carry `type/domain/title/fixedrange/gridcolor`. -/
@[ext]
structure FockAxis where
  gridcolor : Option String := none
  type : Option String := none
  autorange : Option Bool := none
  title : Option String := none
  fixedrange : Option Bool := none
  domain : Option (ℚ × ℚ) := none
deriving DecidableEq

/-- An entry of `layout['annotations']` (keys from the default template at
source lines 76-88; `generate_fock_chart` writes only `text` and `x`). -/
@[ext]
structure FockAnnot where
  showarrow : Option Bool := none
  yanchor : Option String := none
  xref : Option String := none
  xanchor : Option String := none
  yref : Option String := none
  text : Option String := none
  y : Option ℚ := none
  x : Option ℚ := none
  font : Option PlotFont := none
deriving DecidableEq

/-- The `marker` dictionary written at source line 239. -/
@[ext]
structure FockMarker where
  color : String
deriving DecidableEq

/-- An entry of `chart['data']` for the bar chart.  `generate_fock_chart`
resets `data` to fresh empty dicts (all fields `none`) and then populates
them; the default template's single entry has only `y/x/type/name`. -/
@[ext]
structure FockTrace where
  type : Option String := none
  marker : Option FockMarker := none
  x : Option (List String) := none
  y : Option (List ℚ) := none
  xaxis : Option String := none
  yaxis : Option String := none
  name : Option String := none
deriving DecidableEq

/-- The layout dictionary `chart['layout']` for the bar chart.  The fixed fields are the keys of the
default template (source lines 48-89).  The dynamically keyed axes
`xaxis2`, `xaxis3`, … written by the builder live in the association list
`extraXAxes` (a Python dict keyed by those strings); `title` and `font` are
absent from the template and written by the builder. -/
@[ext]
structure FockLayout where
  width : ℚ
  height : ℚ
  margin : PlotMargin
  paper_bgcolor : String
  plot_bgcolor : String
  autosize : Bool
  yaxis : FockAxis
  xaxis : FockAxis
  showlegend : Bool
  annotations : List FockAnnot
  extraXAxes : List (String × FockAxis) := []
  title : Option String := none
  font : Option PlotFont := none
deriving DecidableEq

/-- The dictionary `chart['config']` of the default template (source lines 90-93). -/
@[ext]
structure FockConfig where
  modeBarButtonsToRemove : List String
  displaylogo : Bool
deriving DecidableEq

/-- A bar ChartSpec: the three top-level keys `data`, `layout`, `config`. -/
@[ext]
structure FockChart where
  data : List FockTrace
  layout : FockLayout
  config : FockConfig
deriving DecidableEq

/-- Source lines 41-94: the module-level `barchartDefault` template. -/
def barchartDefault : FockChart :=
  { data := [{ y := some [], x := some [], type := some "bar", name := some "q[0]" }],
    layout :=
      { width := 835,
        height := 500,
        margin := { l := 100, r := 100, b := 100, t := 100, pad := 4 },
        paper_bgcolor := "rgba(0,0,0,0)",
        plot_bgcolor := "rgba(0,0,0,0)",
        autosize := true,
        yaxis := { gridcolor := some "#bbb", type := some "linear", autorange := some true,
                   title := some "Probability", fixedrange := some true },
        xaxis := { gridcolor := some textcolor, type := some "category", autorange := some true,
                   title := some "q[0]", fixedrange := some true },
        showlegend := false,
        annotations := [{ showarrow := some false, yanchor := some "bottom", xref := some "paper",
                          xanchor := some "center", yref := some "paper", text := some "",
                          y := some 1, x := some 0, font := some { size := some 16 } }] },
    config := { modeBarButtonsToRemove := ["zoom2d", "lasso2d", "select2d", "toggleSpikelines"],
                displaylogo := false } }

/-- Python's `sorted` on a list of non-negative integers: the ascending
reordering (source line 237 `sorted(modes)`). -/
def pySorted (l : List ℕ) : List ℕ := l.insertionSort (· ≤ ·)

/-- Python list read `l[i]`: `IndexError` when `i` is out of range.
(The claims only involve non-negative indices, so the wrap-around of negative
Python indices does not arise.) -/
def pyGet {α : Type} (l : List α) (i : ℕ) : Except String α :=
  if h : i < l.length then .ok l[i] else .error "IndexError: list index out of range"

/-- Python element mutation `l[i][k] = v`, i.e. read `l[i]` (raising
`IndexError` when out of range) and replace it by `f l[i]`. -/
def pySet {α : Type} (l : List α) (i : ℕ) (f : α → α) : Except String (List α) :=
  if h : i < l.length then .ok (l.set i (f l[i])) else .error "IndexError: list index out of range"

/-- Little-endian digit reconstruction, used to prove `natStr` injective. -/
def ofDigitsLE : List ℕ → ℕ
  | [] => 0
  | d :: rest => d + 10 * ofDigitsLE rest

/-- Little-endian base-10 digits with explicit fuel (structural recursion so
that the kernel can evaluate it). -/
def digitsRevAux : ℕ → ℕ → List ℕ
  | _, 0 => []
  | 0, _ + 1 => []
  | fuel + 1, n + 1 => ((n + 1) % 10) :: digitsRevAux fuel ((n + 1) / 10)

/-- Little-endian base-10 digits of `n` (fuel `n` always suffices). -/
def natDigitsRev (n : ℕ) : List ℕ := digitsRevAux n n

/-- Decimal rendering of a natural number, as Python's `str`/`"{}".format`. -/
def natStr (n : ℕ) : String :=
  if n = 0 then "0" else ⟨((natDigitsRev n).map Nat.digitChar).reverse⟩

/-- Round a rational to the nearest integer, ties to even — the rounding of
Python's fixed-point float formatting. -/
def roundHalfEven (x : ℚ) : ℤ :=
  let n := x.floor
  if x - n > 1/2 then n + 1
  else if x - n < 1/2 then n
  else if n % 2 = 0 then n else n + 1

/-- Three-digit zero-padded decimal rendering of `k % 1000`. -/
def digit3 (k : ℕ) : String :=
  ⟨[Nat.digitChar (k / 100 % 10), Nat.digitChar (k / 10 % 10), Nat.digitChar (k % 10)]⟩

/-- Python's `"{:.3f}".format(q)`: fixed-point with exactly three digits after
the decimal point (round-half-even, sign preserved). -/
def formatFix3 (q : ℚ) : String :=
  let r := roundHalfEven (q * 1000)
  let sign := if r < 0 ∨ (r = 0 ∧ q < 0) then "-" else ""
  sign ++ natStr (r.natAbs / 1000) ++ "." ++ digit3 (r.natAbs % 1000)

/-- Source lines 243-247: the axis-name pair `Xax` for panel `idx`:
`("xaxis", "x")` for the first panel, `("xaxis{idx+1}", "x{idx+1}")` after. -/
def xaxName (idx : ℕ) : String × String :=
  if idx = 0 then ("xaxis", "x") else ("xaxis" ++ natStr (idx + 1), "x" ++ natStr (idx + 1))

/-- Python dict assignment `d[k] = v` on an insertion-ordered association
list: replace in place when the key is present, append otherwise. -/
def assocSet : List (String × FockAxis) → String → FockAxis → List (String × FockAxis)
  | [], k, v => [(k, v)]
  | (k', v') :: rest, k, v =>
    if k' = k then (k, v) :: rest else (k', v') :: assocSet rest k v

/-- Python dict lookup on the association list. -/
def assocGet : List (String × FockAxis) → String → Option FockAxis
  | [], _ => none
  | (k', v') :: rest, k => if k' = k then some v' else assocGet rest k

/-- Assignment `chart['layout'][key] = axisdict` for a dynamically computed axis key:
key `"xaxis"` is the fixed layout field, every other key goes to the
dict of synthetic axes. -/
def setXAxisKey (L : FockLayout) (key : String) (ax : FockAxis) : FockLayout :=
  if key = "xaxis" then { L with xaxis := ax }
  else { L with extraXAxes := assocSet L.extraXAxes key ax }

/-- Source lines 238-265: the body of the `for idx, n in enumerate(sorted(modes))`
loop of `generate_fock_chart`, as a state transformation of the chart being
mutated.  Each Python subscript access is a `pyGet`/`pySet`. -/
def fockBody (photonDists : List (List ℚ)) (mean : List ℚ) (xlabels : List String)
    (numplots idx n : ℕ) (chart : FockChart) : Except String FockChart := do
  -- line 238: chart['data'][idx]['type'] = 'bar'
  let d ← pySet chart.data idx fun tr => { tr with type := some "bar" }
  let chart := { chart with data := d }
  -- line 239: chart['data'][idx]['marker'] = {'color': '#1f9094'}
  let d ← pySet chart.data idx fun tr => { tr with marker := some { color := "#1f9094" } }
  let chart := { chart with data := d }
  -- line 240: chart['data'][idx]['x'] = xlabels
  let d ← pySet chart.data idx fun tr => { tr with x := some xlabels }
  let chart := { chart with data := d }
  -- line 241: chart['data'][idx]['y'] = photonDists[n].tolist()
  let ys ← pyGet photonDists n
  let d ← pySet chart.data idx fun tr => { tr with y := some ys }
  let chart := { chart with data := d }
  -- lines 243-247: first panel keeps the bare axis names; later panels append
  -- a copy of the previous annotation and use synthetic axis names.
  -- (Python's copy() is shallow, so the nested font dict is shared with the
  -- predecessor; nothing mutates it afterwards, so appending the value is a
  -- faithful embedding.)
  let step ←
    if idx = 0 then
      Except.ok (chart, ("xaxis", "x"))
    else do
      let prev ← pyGet chart.layout.annotations (idx - 1)
      let chart := { chart with layout :=
        { chart.layout with annotations := chart.layout.annotations ++ [prev] } }
      Except.ok (chart, ("xaxis" ++ natStr (idx + 1), "x" ++ natStr (idx + 1)))
  let chart := step.1
  let Xax := step.2
  -- line 249: chart['data'][idx]['xaxis'] = Xax[1]
  let d ← pySet chart.data idx fun tr => { tr with xaxis := some Xax.2 }
  let chart := { chart with data := d }
  -- line 250: chart['data'][idx]['yaxis'] = 'y'
  let d ← pySet chart.data idx fun tr => { tr with yaxis := some "y" }
  let chart := { chart with data := d }
  -- line 251: chart['data'][idx]['name'] = ""
  let d ← pySet chart.data idx fun tr => { tr with name := some "" }
  let chart := { chart with data := d }
  -- lines 253-254
  let dXa : ℚ := if idx ≠ 0 then 1/100 else 0
  let dXb : ℚ := if idx ≠ numplots - 1 then 1/100 else 0
  -- lines 256-262
  let newAxis : FockAxis :=
    { type := some "category",
      domain := some ((idx : ℚ) / numplots + dXa, ((idx : ℚ) + 1) / numplots - dXb),
      title := some ("mode " ++ natStr n),
      fixedrange := some true,
      gridcolor := some "rgba(0,0,0,0)" }
  let chart := { chart with layout := setXAxisKey chart.layout Xax.1 newAxis }
  -- line 264: chart['layout']['annotations'][idx]["text"] = "Mean: {:.3f}".format(mean[n])
  let mv ← pyGet mean n
  let a ← pySet chart.layout.annotations idx fun an =>
    { an with text := some ("Mean: " ++ formatFix3 mv) }
  let chart := { chart with layout := { chart.layout with annotations := a } }
  -- line 265: chart['layout']['annotations'][idx]["x"] = idx / numplots + dXa + 0.5/numplots
  let a ← pySet chart.layout.annotations idx fun an =>
    { an with x := some ((idx : ℚ) / numplots + dXa + (1/2) / numplots) }
  let chart := { chart with layout := { chart.layout with annotations := a } }
  return chart

/-- The `for idx, n in enumerate(sorted(modes))` loop, with `idx` threaded
explicitly. -/
def fockLoop (photonDists : List (List ℚ)) (mean : List ℚ) (xlabels : List String)
    (numplots : ℕ) : List ℕ → ℕ → FockChart → Except String FockChart
  | [], _, chart => .ok chart
  | n :: rest, idx, chart => do
    let chart ← fockBody photonDists mean xlabels numplots idx n chart
    fockLoop photonDists mean xlabels numplots rest (idx + 1) chart

/-- Source lines 220-273: `generate_fock_chart(chart, modes, photonDists, mean, xlabels)`.
The function mutates `chart` in place (there is no copy inside the function)
and returns the same object; the embedding passes the state explicitly and
returns the final state, which is therefore both the returned value and the
state of the caller's `chart` after a successful call. -/
def generate_fock_chart (chart : FockChart) (modes : List ℕ) (photonDists : List (List ℚ))
    (mean : List ℚ) (xlabels : List String) : Except String FockChart :=
  let numplots := modes.length
  -- line 235: chart['data'] = [dict() for i in range(numplots)]
  let chart := { chart with data := List.replicate numplots {} }
  do
    let chart ← fockLoop photonDists mean xlabels numplots (pySorted modes) 0 chart
    -- line 267: chart['layout']['xaxis']['type'] = 'category'
    let chart := { chart with layout :=
      { chart.layout with xaxis := { chart.layout.xaxis with type := some "category" } } }
    -- line 268: chart['layout']['title'] = 'Marginal Fock state probabilities'
    let chart := { chart with layout :=
      { chart.layout with title := some "Marginal Fock state probabilities" } }
    -- lines 270-271: chart['layout']['font'] = {'color': textcolor} (assigned
    -- twice with the identical value; the net effect is a single write)
    let chart := { chart with layout :=
      { chart.layout with font := some { color := some textcolor } } }
    return chart

/-- The caller's template object after a successful `generate_fock_chart` call.
In the source the function mutates its `chart` argument in place and returns
the very same dictionary object, so on success the template's final state is
the returned chart (and `none` here means the call raised). -/
def templateAfterFock (chart : FockChart) (modes : List ℕ) (photonDists : List (List ℚ))
    (mean : List ℚ) (xlabels : List String) : Option FockChart :=
  (generate_fock_chart chart modes photonDists mean xlabels).toOption

/-! Section: The Wigner surface chart (source lines 115-182) -/

/-- The nested `contours.z` dictionary of the surface trace: the skeleton
holds an empty dict, and line 165 writes its `show` key (field `show_` here,
since `show` is a Lean keyword). -/
@[ext]
structure WContoursZ where
  show_ : Option Bool := none
deriving DecidableEq

/-- The `contours` dictionary of the surface trace. -/
@[ext]
structure WContours where
  z : WContoursZ
deriving DecidableEq

/-- The single surface trace of the Wigner chart.  `cmin`/`cmax` hold the
exact real value `∓1/π` that `-1/np.pi` denotes; they are absent from the
skeleton, hence `Option`. -/
@[ext]
structure WignerTrace where
  type : String
  colorscale : List (ℚ × String)
  x : List ℚ
  y : List ℚ
  z : List (List ℚ)
  contours : WContours
  cmin : Option ℝ := none
  cmax : Option ℝ := none

/-- A scene axis of the Wigner chart layout. -/
@[ext]
structure WAxis where
  title : Option String := none
  color : Option String := none
  gridcolor : Option String := none
deriving DecidableEq

/-- The `layout.scene` dictionary. -/
@[ext]
structure WScene where
  xaxis : WAxis
  yaxis : WAxis
  zaxis : WAxis
  bgcolor : Option String := none
deriving DecidableEq

/-- The Wigner chart layout. -/
@[ext]
structure WLayout where
  scene : WScene
  paper_bgcolor : Option String := none
  plot_bgcolor : Option String := none
  font : Option PlotFont := none
deriving DecidableEq

/-- The Wigner ChartSpec (no `config` key in this chart). -/
@[ext]
structure WignerChart where
  data : List WignerTrace
  layout : WLayout

/-- Source lines 130-150: the skeleton `chart` dictionary. -/
def wignerSkeleton : WignerChart :=
  { data := [{ type := "surface", colorscale := [], x := [], y := [], z := [],
               contours := { z := {} } }],
    layout := { scene := { xaxis := {}, yaxis := {}, zaxis := {} } } }

/-- Mutation of `chart["data"][0]`: the data list holds exactly one trace. -/
def wignerUpdateTrace (c : WignerChart) (f : WignerTrace → WignerTrace) : WignerChart :=
  { c with data := c.data.modifyHead f }

/-- Source lines 115-182: `generate_wigner_chart(data, xvec, pvec, contours)`.
Each line of the source mutating `chart` becomes one update below.  Note the
function performs no validation whatsoever of the shape of `data` against
`xvec`/`pvec`. -/
noncomputable def generate_wigner_chart (data : List (List ℚ)) (xvec pvec : List ℚ)
    (contours : Bool) : WignerChart :=
  let chart := wignerSkeleton
  -- line 152: chart["data"][0]["type"] = "surface"
  let chart := wignerUpdateTrace chart fun tr => { tr with type := "surface" }
  -- lines 153-159: the fixed five-stop colorscale
  let chart := wignerUpdateTrace chart fun tr => { tr with colorscale :=
    [(0, "purple"), (1/4, "red"), (1/2, "yellow"), (3/4, "green"), (1, "blue")] }
  -- lines 161-163: x, y, z from the inputs (tolist() of the arrays)
  let chart := wignerUpdateTrace chart fun tr => { tr with x := xvec }
  let chart := wignerUpdateTrace chart fun tr => { tr with y := pvec }
  let chart := wignerUpdateTrace chart fun tr => { tr with z := data }
  -- line 165: chart["data"][0]["contours"]["z"]["show"] = contours
  let chart := wignerUpdateTrace chart fun tr => { tr with contours := { z := { show_ := some contours } } }
  -- lines 167-168: cmin/cmax = ∓ 1/np.pi
  let chart := wignerUpdateTrace chart fun tr => { tr with cmin := some (-(1 / Real.pi)) }
  let chart := wignerUpdateTrace chart fun tr => { tr with cmax := some (1 / Real.pi) }
  -- lines 170-173
  let chart := { chart with layout := { chart.layout with paper_bgcolor := some "white" } }
  let chart := { chart with layout := { chart.layout with plot_bgcolor := some "white" } }
  let chart := { chart with layout := { chart.layout with font := some { color := some textcolor } } }
  let chart := { chart with layout := { chart.layout with scene :=
    { chart.layout.scene with bgcolor := some "white" } } }
  -- lines 175-180
  let chart := { chart with layout := { chart.layout with scene :=
    { chart.layout.scene with xaxis := { chart.layout.scene.xaxis with title := some "x" } } } }
  let chart := { chart with layout := { chart.layout with scene :=
    { chart.layout.scene with xaxis := { chart.layout.scene.xaxis with color := some textcolor } } } }
  let chart := { chart with layout := { chart.layout with scene :=
    { chart.layout.scene with yaxis := { chart.layout.scene.yaxis with title := some "p" } } } }
  let chart := { chart with layout := { chart.layout with scene :=
    { chart.layout.scene with yaxis := { chart.layout.scene.yaxis with color := some textcolor } } } }
  let chart := { chart with layout := { chart.layout with scene :=
    { chart.layout.scene with yaxis := { chart.layout.scene.yaxis with gridcolor := some textcolor } } } }
  let chart := { chart with layout := { chart.layout with scene :=
    { chart.layout.scene with zaxis := { chart.layout.scene.zaxis with title := some "W(x,p)" } } } }
  chart

/-- Replace only the nested contour-projection visibility flag of the surface
trace, leaving every other field of the chart unchanged. -/
noncomputable def setContoursShow (c : WignerChart) (b : Bool) : WignerChart :=
  { c with data := c.data.map fun tr => { tr with contours := { z := { show_ := some b } } } }

/-! Section: The rendering path (source lines 21-34) -/

/-- Source lines 21-24: the module-level `plotly_error` message string. -/
def plotly_error : String :=
  "Plot.ly required for using this function. It can be installed using pip install plotly or visiting https://plot.ly/python/getting-started/#installation"

/-- The Python exceptions relevant to `_get_plotly`. -/
inductive PyExc where
  | typeError (msg : String)
  | importError (msg : String)
deriving DecidableEq

/-- Source lines 27-34: `_get_plotly()`, parametrised by whether
`import plotly.io` succeeds.  When the import fails the source executes
`raise (plotly_error) from e`, and `plotly_error` is a `str`, not an
exception: in Python 3 raising a non-`BaseException` value itself raises
`TypeError("exceptions must derive from BaseException")`, so that `TypeError`
— not an `ImportError` carrying the message — is what reaches the caller. -/
def _get_plotly (plotlyAvailable : Bool) : Except PyExc Unit :=
  if plotlyAvailable then .ok ()
  else .error (.typeError "exceptions must derive from BaseException")

/-! Section: Specification-side descriptions of the Fock builder's output -/

/-- Gap `dXa` of source line 253: the left gap of panel `idx`. -/
def panelGapL (idx : ℕ) : ℚ := if idx ≠ 0 then 1/100 else 0

/-- Gap `dXb` of source line 254: the right gap of panel `idx` among `numplots`. -/
def panelGapR (numplots idx : ℕ) : ℚ := if idx ≠ numplots - 1 then 1/100 else 0

/-- The lower end of panel `idx`'s x-domain (source line 258). -/
def panelLow (numplots idx : ℕ) : ℚ := (idx : ℚ) / numplots + panelGapL idx

/-- The upper end of panel `idx`'s x-domain (source line 258). -/
def panelHigh (numplots idx : ℕ) : ℚ := ((idx : ℚ) + 1) / numplots - panelGapR numplots idx

/-- Panel `idx`'s x-domain as a set. -/
def panelSet (numplots idx : ℕ) : Set ℚ := Set.Icc (panelLow numplots idx) (panelHigh numplots idx)

/-- The seam between adjacent panels `k-1` and `k` (for `1 ≤ k ≤ numplots-1`):
the gap interval between the upper end of panel `k-1`'s domain and the lower
end of panel `k`'s domain. -/
def seamSet (numplots k : ℕ) : Set ℚ :=
  Set.Icc (panelHigh numplots (k - 1)) (panelLow numplots k)

/-- The union of all panel domains together with all seams. -/
def domainsWithSeams (numplots : ℕ) : Set ℚ :=
  (⋃ idx ∈ Finset.range numplots, panelSet numplots idx) ∪
    (⋃ k ∈ Finset.Icc 1 (numplots - 1), seamSet numplots k)

/-- The bar trace the loop body builds for panel `idx` showing mode `n`. -/
def fockTraceAt (photonDists : List (List ℚ)) (xlabels : List String) (idx n : ℕ) : FockTrace :=
  { type := some "bar", marker := some { color := "#1f9094" }, x := some xlabels,
    y := some (photonDists.getD n []), xaxis := some (xaxName idx).2,
    yaxis := some "y", name := some "" }

/-- The axis dictionary the loop body writes for panel `idx` showing mode `n`. -/
def fockAxisAt (numplots idx n : ℕ) : FockAxis :=
  { type := some "category",
    domain := some (panelLow numplots idx, panelHigh numplots idx),
    title := some ("mode " ++ natStr n),
    fixedrange := some true,
    gridcolor := some "rgba(0,0,0,0)" }

/-- The annotation for panel `idx` showing mode `n`: the seed annotation with
only `text` and `x` overwritten. -/
def fockAnnAt (seed : FockAnnot) (mean : List ℚ) (numplots idx n : ℕ) : FockAnnot :=
  { seed with text := some ("Mean: " ++ formatFix3 (mean.getD n 0)),
              x := some ((idx : ℚ) / numplots + panelGapL idx + (1/2) / numplots) }

/-- The final `data` list: one bar trace per ascending mode. -/
def fockDataOf (photonDists : List (List ℚ)) (xlabels : List String) (s : List ℕ) :
    List FockTrace :=
  s.enum.map fun p => fockTraceAt photonDists xlabels p.1 p.2

/-- The final annotation list (for a template seeded with one annotation). -/
def fockAnnsOf (seed : FockAnnot) (mean : List ℚ) (numplots : ℕ) (s : List ℕ) :
    List FockAnnot :=
  s.enum.map fun p => fockAnnAt seed mean numplots p.1 p.2

/-- The final synthetic-axis dict (`xaxis2`, `xaxis3`, …). -/
def fockExtrasOf (numplots : ℕ) (s : List ℕ) : List (String × FockAxis) :=
  (s.enum.drop 1).map fun p => ("xaxis" ++ natStr (p.1 + 1), fockAxisAt numplots p.1 p.2)

/-- The chart state after the loop has processed the first `k` panels of the
sorted mode list `s`, starting from a template `t` whose annotation list is
the single seed and whose synthetic-axis dict is empty. -/
def fockStateAt (t : FockChart) (seed : FockAnnot) (photonDists : List (List ℚ))
    (mean : List ℚ) (xlabels : List String) (numplots : ℕ) (s : List ℕ) (k : ℕ) : FockChart :=
  { t with
    data := (s.enum.take k).map (fun p => fockTraceAt photonDists xlabels p.1 p.2) ++
      List.replicate (numplots - k) {},
    layout := { t.layout with
      annotations := if k = 0 then [seed] else
        (s.enum.take k).map fun p => fockAnnAt seed mean numplots p.1 p.2,
      xaxis := if k = 0 then t.layout.xaxis else fockAxisAt numplots 0 (s.headD 0),
      extraXAxes := ((s.enum.take k).drop 1).map
        fun p => ("xaxis" ++ natStr (p.1 + 1), fockAxisAt numplots p.1 p.2) } }

/-- The closed form of `generate_fock_chart`'s output on a valid call with a
non-empty mode list: the template with `data`, `annotations`, the axis
dictionaries, `title` and `font` replaced as the loop does. -/
def fockResult (t : FockChart) (seed : FockAnnot) (modes : List ℕ)
    (photonDists : List (List ℚ)) (mean : List ℚ) (xlabels : List String) : FockChart :=
  let s := pySorted modes
  let numplots := modes.length
  { t with
    data := fockDataOf photonDists xlabels s,
    layout := { t.layout with
      annotations := fockAnnsOf seed mean numplots s,
      xaxis := fockAxisAt numplots 0 (s.headD 0),
      extraXAxes := fockExtrasOf numplots s,
      title := some "Marginal Fock state probabilities",
      font := some { color := some textcolor } } }

/-- The axis dictionary governing panel `idx` in a populated chart: panel 0
binds to the primary `layout.xaxis`, panel `idx ≥ 1` to the synthetic key
`xaxis{idx+1}`. -/
def xAxisAt (c : FockChart) (idx : ℕ) : Option FockAxis :=
  if idx = 0 then some c.layout.xaxis
  else assocGet c.layout.extraXAxes ("xaxis" ++ natStr (idx + 1))


/-! Section: Helper lemmas: `Except`, `pyGet`, `pySet` -/

theorem okBind {ε α β : Type} (a : α) (f : α → Except ε β) :
    (Except.ok a >>= f) = f a := rfl

theorem errorBind {ε α β : Type} (e : ε) (f : α → Except ε β) :
    (Except.error e >>= f : Except ε β) = Except.error e := rfl

theorem bindOkIff {ε α β : Type} {e : Except ε α} {f : α → Except ε β} {b : β} :
    (e >>= f) = .ok b ↔ ∃ a, e = .ok a ∧ f a = .ok b := by
  cases e with
  | ok a => simp [okBind]
  | error e => simp [errorBind]

theorem pyGet_pos {α : Type} {l : List α} {i : ℕ} (h : i < l.length) :
    pyGet l i = .ok l[i] := dif_pos h

theorem pyGet_neg {α : Type} {l : List α} {i : ℕ} (h : l.length ≤ i) :
    pyGet l i = .error "IndexError: list index out of range" := dif_neg (by omega)

theorem pySet_neg {α : Type} {l : List α} {i : ℕ} (f : α → α) (h : l.length ≤ i) :
    pySet l i f = .error "IndexError: list index out of range" := dif_neg (by omega)

theorem pyGet_ok_bound {α : Type} {l : List α} {i : ℕ} {a : α} (h : pyGet l i = .ok a) :
    i < l.length := by
  by_cases hi : i < l.length
  · exact hi
  · rw [pyGet_neg (by omega)] at h; exact absurd h (by simp)

theorem pySet_ok_bound {α : Type} {l : List α} {i : ℕ} {f : α → α} {l' : List α}
    (h : pySet l i f = .ok l') : i < l.length := by
  by_cases hi : i < l.length
  · exact hi
  · rw [pySet_neg f (by omega)] at h; exact absurd h (by simp)

theorem pySet_pos {α : Type} {l : List α} {i : ℕ} (f : α → α) (h : i < l.length) :
    pySet l i f = .ok (l.set i (f l[i])) := dif_pos h

theorem list_set_at_append {α : Type} (A : List α) (w v : α) (B : List α) :
    (A ++ w :: B).set A.length v = A ++ v :: B := by
  induction A with
  | nil => rfl
  | cons a A ih => simp [List.set, ih]

theorem list_get_at_append {α : Type} (A : List α) (w : α) (B : List α)
    (h : A.length < (A ++ w :: B).length) : (A ++ w :: B)[A.length] = w := by
  rw [List.getElem_append_right (Nat.le_refl _)]
  simp

theorem pyGet_append_cons {α : Type} (A : List α) (w : α) (B : List α) {k : ℕ}
    (hk : A.length = k) : pyGet (A ++ w :: B) k = .ok w := by
  subst hk
  have h : A.length < (A ++ w :: B).length := by simp
  rw [pyGet_pos h, list_get_at_append]

theorem pySet_append_cons {α : Type} (A : List α) (w : α) (B : List α) (f : α → α) {k : ℕ}
    (hk : A.length = k) : pySet (A ++ w :: B) k f = .ok (A ++ f w :: B) := by
  subst hk
  have h : A.length < (A ++ w :: B).length := by simp
  rw [pySet_pos f h, list_get_at_append _ _ _ h, list_set_at_append]

/-! Section: Helper lemmas: decimal rendering -/

theorem digitsRevAux_ofDigits : ∀ fuel n, n ≤ fuel → ofDigitsLE (digitsRevAux fuel n) = n := by
  intro fuel
  induction fuel with
  | zero =>
    intro n hn
    interval_cases n
    rfl
  | succ fuel ih =>
    intro n hn
    match n with
    | 0 => rfl
    | m + 1 =>
      have hdiv : (m + 1) / 10 ≤ fuel := by
        have : (m + 1) / 10 < m + 1 := Nat.div_lt_self (Nat.succ_pos m) (by norm_num)
        omega
      show ((m + 1) % 10) + 10 * ofDigitsLE (digitsRevAux fuel ((m + 1) / 10)) = m + 1
      rw [ih _ hdiv, Nat.mod_add_div]

theorem natDigitsRev_inj {a b : ℕ} (h : natDigitsRev a = natDigitsRev b) : a = b := by
  have ha := digitsRevAux_ofDigits a a (Nat.le_refl a)
  have hb := digitsRevAux_ofDigits b b (Nat.le_refl b)
  have h2 : ofDigitsLE (digitsRevAux a a) = ofDigitsLE (digitsRevAux b b) := congrArg _ h
  rw [ha, hb] at h2
  exact h2

theorem digitsRevAux_lt10 : ∀ fuel n d, d ∈ digitsRevAux fuel n → d < 10 := by
  intro fuel
  induction fuel with
  | zero =>
    intro n d hd
    cases n <;> simp [digitsRevAux] at hd
  | succ fuel ih =>
    intro n d hd
    match n with
    | 0 => simp [digitsRevAux] at hd
    | m + 1 =>
      simp only [digitsRevAux, List.mem_cons] at hd
      rcases hd with h | h
      · subst h; exact Nat.mod_lt _ (by norm_num)
      · exact ih _ _ h

theorem digitChar_inj10 : ∀ a : Fin 10, ∀ b : Fin 10,
    Nat.digitChar a = Nat.digitChar b → a = b := by decide

theorem digitChar_inj {a b : ℕ} (ha : a < 10) (hb : b < 10)
    (h : Nat.digitChar a = Nat.digitChar b) : a = b := by
  have := digitChar_inj10 ⟨a, ha⟩ ⟨b, hb⟩ h
  exact congrArg Fin.val this

theorem map_digitChar_inj : ∀ l₁ l₂ : List ℕ, (∀ d ∈ l₁, d < 10) → (∀ d ∈ l₂, d < 10) →
    l₁.map Nat.digitChar = l₂.map Nat.digitChar → l₁ = l₂ := by
  intro l₁
  induction l₁ with
  | nil => intro l₂ _ _ h; cases l₂ <;> simp_all
  | cons a l₁ ih =>
    intro l₂ h1 h2 h
    cases l₂ with
    | nil => simp at h
    | cons b l₂ =>
      simp only [List.map_cons, List.cons.injEq] at h
      have hab : a = b := digitChar_inj (h1 a (by simp)) (h2 b (by simp)) h.1
      have : l₁ = l₂ := ih l₂ (fun d hd => h1 d (by simp [hd])) (fun d hd => h2 d (by simp [hd])) h.2
      rw [hab, this]

theorem natStr_inj {a b : ℕ} (h : natStr a = natStr b) : a = b := by
  have hdata := congrArg String.data h
  by_cases ha : a = 0 <;> by_cases hb : b = 0
  · omega
  · exfalso
    simp only [natStr, ha, hb, if_pos, if_neg, if_true] at hdata
    have : List.map Nat.digitChar (natDigitsRev b) = ['0'] := by
      have := congrArg List.reverse hdata
      simpa using this.symm
    have hdig : natDigitsRev b = [0] := by
      apply map_digitChar_inj _ _ (fun d hd => digitsRevAux_lt10 _ _ _ hd) (by simp)
      simpa using this
    have : b = 0 := by
      have := digitsRevAux_ofDigits b b (Nat.le_refl b)
      rw [show digitsRevAux b b = natDigitsRev b from rfl, hdig] at this
      simpa [ofDigitsLE] using this.symm
    exact hb this
  · exfalso
    simp only [natStr, ha, hb, if_pos, if_neg, if_true] at hdata
    have : List.map Nat.digitChar (natDigitsRev a) = ['0'] := by
      have := congrArg List.reverse hdata
      simpa using this
    have hdig : natDigitsRev a = [0] := by
      apply map_digitChar_inj _ _ (fun d hd => digitsRevAux_lt10 _ _ _ hd) (by simp)
      simpa using this
    have : a = 0 := by
      have := digitsRevAux_ofDigits a a (Nat.le_refl a)
      rw [show digitsRevAux a a = natDigitsRev a from rfl, hdig] at this
      simpa [ofDigitsLE] using this.symm
    exact ha this
  · simp only [natStr, ha, hb, if_neg] at hdata
    have : (natDigitsRev a).map Nat.digitChar = (natDigitsRev b).map Nat.digitChar := by
      have := congrArg List.reverse hdata
      simpa using this
    exact natDigitsRev_inj (map_digitChar_inj _ _
      (fun d hd => digitsRevAux_lt10 _ _ _ hd) (fun d hd => digitsRevAux_lt10 _ _ _ hd) this)

theorem natStr_length_pos (n : ℕ) : 0 < (natStr n).length := by
  match n with
  | 0 => decide
  | m + 1 =>
    simp only [natStr, if_neg (Nat.succ_ne_zero m)]
    show 0 < (List.reverse _).length
    simp [natDigitsRev, digitsRevAux]

theorem xaxKey_ne_xaxis (i : ℕ) : ("xaxis" ++ natStr i : String) ≠ "xaxis" := by
  intro h
  have := congrArg String.length h
  rw [String.length_append] at this
  have := natStr_length_pos i
  simp only [String.length] at *
  omega

theorem xaxKey_inj {i j : ℕ} (h : ("xaxis" ++ natStr i : String) = "xaxis" ++ natStr j) :
    i = j := by
  have hdata := congrArg String.data h
  rw [String.data_append, String.data_append] at hdata
  have : (natStr i).data = (natStr j).data := List.append_cancel_left hdata
  have : natStr i = natStr j := String.ext this
  exact natStr_inj this

/-! Section: Helper lemmas: association lists and `enum` -/

theorem assocSet_not_mem {L : List (String × FockAxis)} {k : String} {v : FockAxis}
    (h : ∀ p ∈ L, p.1 ≠ k) : assocSet L k v = L ++ [(k, v)] := by
  induction L with
  | nil => rfl
  | cons q L ih =>
    simp only [assocSet]
    rw [if_neg (h q (by simp))]
    simp only [List.cons_append, List.cons.injEq, true_and]
    exact ih fun p hp => h p (by simp [hp])

theorem assocGet_of_mem {L : List (String × FockAxis)} {k : String} {v : FockAxis}
    (hmem : (k, v) ∈ L) (huniq : ∀ p ∈ L, p.1 = k → p.2 = v) : assocGet L k = some v := by
  induction L with
  | nil => simp at hmem
  | cons q L ih =>
    simp only [assocGet]
    by_cases hq : q.1 = k
    · rw [if_pos hq]
      rw [huniq q (by simp) hq]
    · rw [if_neg hq]
      rcases List.mem_cons.1 hmem with h | h
      · exact absurd (congrArg Prod.fst h.symm) hq
      · exact ih h fun p hp => huniq p (by simp [hp])

theorem mem_enum_eq {s : List ℕ} {p : ℕ × ℕ} (hp : p ∈ s.enum) :
    p.1 < s.length ∧ p = (p.1, s.getD p.1 0) := by
  rcases List.mem_iff_getElem.1 hp with ⟨i, hi, hget⟩
  have hlen : i < s.length := by simpa using hi
  rw [List.getElem_enum] at hget
  subst hget
  refine ⟨hlen, ?_⟩
  simp [List.getD_eq_getElem?_getD, List.getElem?_eq_getElem hlen]

theorem mem_take_fst_lt {s : List ℕ} {k : ℕ} {p : ℕ × ℕ} (hp : p ∈ s.enum.take k) :
    p.1 < k := by
  rcases List.mem_iff_getElem.1 hp with ⟨i, hi, hget⟩
  have hik : i < k := by
    have := List.length_take k s.enum
    omega
  have hilen : i < s.enum.length := by
    simp only [List.length_take] at hi
    omega
  have : (s.enum.take k)[i] = s.enum[i] := List.getElem_take ..
  rw [this, List.getElem_enum] at hget
  have : p.1 = i := by rw [← hget]
  omega

theorem enum_take_succ {s : List ℕ} {k : ℕ} (hk : k < s.length) :
    s.enum.take (k + 1) = s.enum.take k ++ [(k, s.getD k 0)] := by
  rw [List.take_succ]
  have hlen : k < s.enum.length := by simpa using hk
  rw [List.getElem?_eq_getElem hlen, List.getElem_enum]
  simp [List.getD_eq_getElem?_getD, List.getElem?_eq_getElem hk]

/-! Section: The loop body advances the chart state by one panel -/

theorem pySet_zero {α : Type} (w : α) (B : List α) (f : α → α) :
    pySet (w :: B) 0 f = .ok (f w :: B) := by
  rw [pySet_pos f (by simp)]
  rfl

theorem setXAxisKey_xaxis (L : FockLayout) (ax : FockAxis) :
    setXAxisKey L "xaxis" ax = { L with xaxis := ax } := if_pos rfl

theorem setXAxisKey_other (L : FockLayout) (key : String) (ax : FockAxis) (h : key ≠ "xaxis") :
    setXAxisKey L key ax = { L with extraXAxes := assocSet L.extraXAxes key ax } := if_neg h

theorem fockBody_step0 (t : FockChart) (seed : FockAnnot) (pd : List (List ℚ)) (mean : List ℚ)
    (xl : List String) (s : List ℕ) (hk : 0 < s.length)
    (hpd : s.getD 0 0 < pd.length) (hmean : s.getD 0 0 < mean.length) :
    fockBody pd mean xl s.length 0 (s.getD 0 0) (fockStateAt t seed pd mean xl s.length s 0)
      = .ok (fockStateAt t seed pd mean xl s.length s 1) := by
  have hrep : List.replicate (s.length - 0) ({} : FockTrace)
      = {} :: List.replicate (s.length - 1) {} := by
    rw [show s.length - 0 = (s.length - 1) + 1 by omega, List.replicate_succ]
  simp only [fockBody, fockStateAt, List.take_zero, List.map_nil, List.nil_append,
    List.drop_nil, if_true, reduceIte]
  rw [hrep]
  rw [pySet_zero]; simp only [okBind]
  rw [pySet_zero]; simp only [okBind]
  rw [pySet_zero]; simp only [okBind]
  rw [pyGet_pos hpd]; simp only [okBind]
  rw [pySet_zero]; simp only [okBind]
  rw [pySet_zero]; simp only [okBind]
  rw [pySet_zero]; simp only [okBind]
  rw [pySet_zero]; simp only [okBind]
  rw [pyGet_pos hmean]; simp only [okBind]
  rw [setXAxisKey_xaxis]
  simp only []
  rw [pySet_zero]; simp only [okBind]
  rw [pySet_zero]; simp only [okBind]
  show Except.ok _ = _
  rw [enum_take_succ hk]
  simp only [List.take_zero, List.nil_append, List.map_cons, List.map_nil, List.drop_one,
    List.tail_cons]
  have hpdg : pd.getD (s.getD 0 0) [] = pd[s.getD 0 0] := by
    rw [List.getD_eq_getElem?_getD, List.getElem?_eq_getElem hpd, Option.getD_some]
  have hmg : mean.getD (s.getD 0 0) 0 = mean[s.getD 0 0] := by
    rw [List.getD_eq_getElem?_getD, List.getElem?_eq_getElem hmean, Option.getD_some]
  have hhead : s.headD 0 = s.getD 0 0 := by
    cases s with
    | nil => simp at hk
    | cons a l => rfl
  simp only [fockTraceAt, fockAxisAt, fockAnnAt, panelLow, panelHigh, panelGapL, panelGapR,
    xaxName, hpdg, hmg, hhead, reduceIte, List.singleton_append, Nat.cast_zero]
  rfl

theorem fockBody_stepS (t : FockChart) (seed : FockAnnot) (pd : List (List ℚ)) (mean : List ℚ)
    (xl : List String) (s : List ℕ) (j : ℕ) (hk : j + 1 < s.length)
    (hpd : s.getD (j + 1) 0 < pd.length) (hmean : s.getD (j + 1) 0 < mean.length) :
    fockBody pd mean xl s.length (j + 1) (s.getD (j + 1) 0)
        (fockStateAt t seed pd mean xl s.length s (j + 1))
      = .ok (fockStateAt t seed pd mean xl s.length s (j + 1 + 1)) := by
  have hkj : j < s.length := by omega
  have hrep : List.replicate (s.length - (j + 1)) ({} : FockTrace)
      = {} :: List.replicate (s.length - (j + 1 + 1)) {} := by
    rw [show s.length - (j + 1) = (s.length - (j + 1 + 1)) + 1 by omega, List.replicate_succ]
  have hA : ((s.enum.take (j + 1)).map (fun p => fockTraceAt pd xl p.1 p.2)).length = j + 1 := by
    rw [List.length_map, List.length_take, List.enum_length]; omega
  have hAnn : ((s.enum.take (j + 1)).map
      (fun p => fockAnnAt seed mean s.length p.1 p.2)).length = j + 1 := by
    rw [List.length_map, List.length_take, List.enum_length]; omega
  simp only [fockBody, fockStateAt, if_neg (Nat.succ_ne_zero j)]
  rw [hrep]
  rw [pySet_append_cons _ _ _ _ hA]; simp only [okBind]
  rw [pySet_append_cons _ _ _ _ hA]; simp only [okBind]
  rw [pySet_append_cons _ _ _ _ hA]; simp only [okBind]
  rw [pyGet_pos hpd]; simp only [okBind]
  rw [pySet_append_cons _ _ _ _ hA]; simp only [okBind]
  have hgetann : pyGet ((s.enum.take (j + 1)).map
      (fun p => fockAnnAt seed mean s.length p.1 p.2)) (j + 1 - 1)
      = .ok (fockAnnAt seed mean s.length j (s.getD j 0)) := by
    rw [enum_take_succ hkj, List.map_append]
    exact pyGet_append_cons _ _ _ (by rw [List.length_map, List.length_take, List.enum_length]; omega)
  rw [hgetann]; simp only [okBind]
  rw [pySet_append_cons _ _ _ _ hA]; simp only [okBind]
  rw [pySet_append_cons _ _ _ _ hA]; simp only [okBind]
  rw [pySet_append_cons _ _ _ _ hA]; simp only [okBind]
  rw [setXAxisKey_other _ _ _ (xaxKey_ne_xaxis (j + 1 + 1))]
  have hnot : ∀ p ∈ ((s.enum.take (j + 1)).drop 1).map
      (fun p => ("xaxis" ++ natStr (p.1 + 1), fockAxisAt s.length p.1 p.2)),
      p.1 ≠ "xaxis" ++ natStr (j + 1 + 1) := by
    intro p hp
    rcases List.mem_map.1 hp with ⟨q, hq, rfl⟩
    intro hcon
    have h1 := xaxKey_inj hcon
    have h2 := mem_take_fst_lt (List.mem_of_mem_drop hq)
    omega
  rw [assocSet_not_mem hnot]
  rw [pyGet_pos hmean]; simp only [okBind]
  rw [pySet_append_cons _ _ _ _ hAnn]; simp only [okBind]
  rw [pySet_append_cons _ _ _ _ hAnn]; simp only [okBind]
  show Except.ok _ = _
  rw [if_neg (Nat.succ_ne_zero (j + 1)), if_neg (Nat.succ_ne_zero (j + 1))]
  rw [enum_take_succ hk]
  have hdrop : (s.enum.take (j + 1) ++ [(j + 1, s.getD (j + 1) 0)]).drop 1
      = (s.enum.take (j + 1)).drop 1 ++ [(j + 1, s.getD (j + 1) 0)] := by
    apply List.drop_append_of_le_length
    rw [List.length_take, List.enum_length]; omega
  rw [hdrop, List.map_append, List.map_append, List.map_append]
  have hpdg : pd.getD (s.getD (j + 1) 0) [] = pd[s.getD (j + 1) 0] := by
    rw [List.getD_eq_getElem?_getD, List.getElem?_eq_getElem hpd, Option.getD_some]
  have hmg : mean.getD (s.getD (j + 1) 0) 0 = mean[s.getD (j + 1) 0] := by
    rw [List.getD_eq_getElem?_getD, List.getElem?_eq_getElem hmean, Option.getD_some]
  simp only [fockTraceAt, fockAxisAt, fockAnnAt, panelLow, panelHigh, panelGapL, panelGapR,
    xaxName, hpdg, hmg, List.map_cons, List.map_nil, if_neg (Nat.succ_ne_zero j),
    List.append_assoc, List.singleton_append]

theorem fockBody_step (t : FockChart) (seed : FockAnnot) (pd : List (List ℚ)) (mean : List ℚ)
    (xl : List String) (s : List ℕ) (k : ℕ) (hk : k < s.length)
    (hpd : s.getD k 0 < pd.length) (hmean : s.getD k 0 < mean.length) :
    fockBody pd mean xl s.length k (s.getD k 0) (fockStateAt t seed pd mean xl s.length s k)
      = .ok (fockStateAt t seed pd mean xl s.length s (k + 1)) := by
  cases k with
  | zero => exact fockBody_step0 t seed pd mean xl s hk hpd hmean
  | succ j => exact fockBody_stepS t seed pd mean xl s j hk hpd hmean

/-! Section: The loop establishes the closed form -/

theorem fockLoop_spec (t : FockChart) (seed : FockAnnot) (pd : List (List ℚ)) (mean : List ℚ)
    (xl : List String) (s : List ℕ)
    (hBs : ∀ m ∈ s, m < pd.length ∧ m < mean.length) :
    ∀ (l : List ℕ) (k : ℕ), k ≤ s.length → s.drop k = l →
      fockLoop pd mean xl s.length l k (fockStateAt t seed pd mean xl s.length s k)
        = .ok (fockStateAt t seed pd mean xl s.length s s.length) := by
  intro l
  induction l with
  | nil =>
    intro k hk hdrop
    have h1 : s.length ≤ k := List.drop_eq_nil_iff.1 hdrop
    have h2 : k = s.length := by omega
    subst h2
    rfl
  | cons m rest ih =>
    intro k hk hdrop
    have hklt : k < s.length := by
      have := congrArg List.length hdrop
      simp only [List.length_drop, List.length_cons] at this
      omega
    have hcons := (List.drop_eq_getElem_cons hklt).symm.trans hdrop
    have hgetel : s[k] = m := (List.cons.inj hcons).1
    have hrest : s.drop (k + 1) = rest := (List.cons.inj hcons).2
    have hget : s.getD k 0 = m := by
      rw [List.getD_eq_getElem?_getD, List.getElem?_eq_getElem hklt, Option.getD_some, hgetel]
    have hmem : m ∈ s := hgetel ▸ List.getElem_mem hklt
    have hstep := fockBody_step t seed pd mean xl s k hklt
      (by rw [hget]; exact (hBs m hmem).1) (by rw [hget]; exact (hBs m hmem).2)
    simp only [fockLoop]
    rw [← hget, hstep]
    simp only [okBind]
    exact ih (k + 1) (by omega) hrest
theorem generate_fock_chart_eq (t : FockChart) (seed : FockAnnot) (modes : List ℕ)
    (pd : List (List ℚ)) (mean : List ℚ) (xl : List String)
    (hm : modes ≠ []) (hann : t.layout.annotations = [seed]) (hx : t.layout.extraXAxes = [])
    (hB : ∀ m ∈ modes, m < pd.length ∧ m < mean.length) :
    generate_fock_chart t modes pd mean xl = .ok (fockResult t seed modes pd mean xl) := by
  have hperm : (pySorted modes).Perm modes := List.perm_insertionSort _ _
  have hlen : (pySorted modes).length = modes.length := List.length_insertionSort _ _
  have hBs : ∀ m ∈ pySorted modes, m < pd.length ∧ m < mean.length :=
    fun m hm' => hB m (hperm.mem_iff.1 hm')
  have hslen : 0 < (pySorted modes).length := by
    rw [hlen]
    exact List.length_pos.2 hm
  have hs0 : fockStateAt t seed pd mean xl (pySorted modes).length (pySorted modes) 0
      = { t with data := List.replicate (pySorted modes).length {} } := by
    simp only [fockStateAt, List.take_zero, List.map_nil, List.nil_append, List.drop_nil,
      reduceIte, Nat.sub_zero]
    rw [← hann, ← hx]
  have hloop := fockLoop_spec t seed pd mean xl (pySorted modes) hBs (pySorted modes) 0
    (by omega) rfl
  rw [hs0] at hloop
  simp only [generate_fock_chart, ← hlen]
  rw [hloop]
  simp only [okBind]
  have htake : (pySorted modes).enum.take (pySorted modes).length = (pySorted modes).enum :=
    List.take_of_length_le (by simp [List.enum_length])
  simp only [fockResult, fockStateAt, fockDataOf, fockAnnsOf, fockExtrasOf, ← hlen,
    if_neg (by omega : ¬((pySorted modes).length = 0)), htake, Nat.sub_self,
    List.replicate_zero, List.append_nil]
  rfl

/-! Section: Projections of the closed form -/

theorem fockResult_data_getD (t : FockChart) (seed : FockAnnot) (modes : List ℕ)
    (pd : List (List ℚ)) (mean : List ℚ) (xl : List String) (idx : ℕ)
    (h : idx < modes.length) :
    (fockResult t seed modes pd mean xl).data.getD idx {}
      = fockTraceAt pd xl idx ((pySorted modes).getD idx 0) := by
  have hlen : (pySorted modes).length = modes.length := List.length_insertionSort _ _
  have hidx : idx < (pySorted modes).length := by omega
  have hidx2 : idx < (pySorted modes).enum.length := by simp [List.enum_length]; omega
  simp only [fockResult, fockDataOf]
  rw [List.getD_eq_getElem?_getD,
    List.getElem?_eq_getElem (by simp only [List.length_map]; exact hidx2),
    Option.getD_some, List.getElem_map, List.getElem_enum]
  congr 1
  rw [List.getD_eq_getElem?_getD, List.getElem?_eq_getElem hidx, Option.getD_some]

theorem fockResult_ann_length (t : FockChart) (seed : FockAnnot) (modes : List ℕ)
    (pd : List (List ℚ)) (mean : List ℚ) (xl : List String) :
    (fockResult t seed modes pd mean xl).layout.annotations.length = modes.length := by
  have hlen : (pySorted modes).length = modes.length := List.length_insertionSort _ _
  simp [fockResult, fockAnnsOf, List.enum_length, hlen]

theorem fockResult_ann_getD (t : FockChart) (seed : FockAnnot) (modes : List ℕ)
    (pd : List (List ℚ)) (mean : List ℚ) (xl : List String) (idx : ℕ)
    (h : idx < modes.length) :
    (fockResult t seed modes pd mean xl).layout.annotations.getD idx {}
      = fockAnnAt seed mean modes.length idx ((pySorted modes).getD idx 0) := by
  have hlen : (pySorted modes).length = modes.length := List.length_insertionSort _ _
  have hidx : idx < (pySorted modes).length := by omega
  have hidx2 : idx < (pySorted modes).enum.length := by simp [List.enum_length]; omega
  simp only [fockResult, fockAnnsOf]
  rw [List.getD_eq_getElem?_getD,
    List.getElem?_eq_getElem (by simp only [List.length_map]; exact hidx2),
    Option.getD_some, List.getElem_map, List.getElem_enum]
  congr 1
  rw [List.getD_eq_getElem?_getD, List.getElem?_eq_getElem hidx, Option.getD_some]

theorem xAxisAt_fockResult (t : FockChart) (seed : FockAnnot) (modes : List ℕ)
    (pd : List (List ℚ)) (mean : List ℚ) (xl : List String) (idx : ℕ)
    (h : idx < modes.length) :
    xAxisAt (fockResult t seed modes pd mean xl) idx
      = some (fockAxisAt modes.length idx ((pySorted modes).getD idx 0)) := by
  have hlen : (pySorted modes).length = modes.length := List.length_insertionSort _ _
  have hidx : idx < (pySorted modes).length := by omega
  cases idx with
  | zero =>
    have hpos : 0 < (pySorted modes).length := hidx
    have hhead : (pySorted modes).headD 0 = (pySorted modes).getD 0 0 := by
      cases hs : pySorted modes with
      | nil => rw [hs] at hpos; simp at hpos
      | cons a l => rfl
    simp only [xAxisAt, reduceIte, fockResult, hhead]
  | succ j =>
    simp only [xAxisAt, if_neg (Nat.succ_ne_zero j), fockResult, fockExtrasOf]
    apply assocGet_of_mem
    · apply List.mem_map.2
      refine ⟨(j + 1, (pySorted modes).getD (j + 1) 0), ?_, rfl⟩
      apply List.mem_iff_getElem.2
      have hb : j < ((pySorted modes).enum.drop 1).length := by
        simp [List.length_drop, List.enum_length]; omega
      refine ⟨j, hb, ?_⟩
      rw [List.getElem_drop, List.getElem_enum]
      simp only [Nat.add_comm 1 j]
      rw [List.getD_eq_getElem?_getD, List.getElem?_eq_getElem hidx, Option.getD_some]
    · intro p hp hkey
      rcases List.mem_map.1 hp with ⟨q, hq, rfl⟩
      have h1 := xaxKey_inj hkey
      have h2 := mem_enum_eq (List.mem_of_mem_drop hq)
      have h3 : q.1 = j + 1 := by omega
      rw [h2.2, h3]

/-! Section: Formatting facts and failure propagation -/

theorem digit3_spec (k : ℕ) : (digit3 k).length = 3 ∧ (digit3 k).data.all Char.isDigit = true := by
  have hdig : ∀ f : Fin 10, (Nat.digitChar f.val).isDigit = true := by decide
  have h10 : ∀ d : ℕ, (Nat.digitChar (d % 10)).isDigit = true := fun d =>
    hdig ⟨d % 10, Nat.mod_lt _ (by norm_num)⟩
  refine ⟨rfl, ?_⟩
  show ([Nat.digitChar (k / 100 % 10), Nat.digitChar (k / 10 % 10),
    Nat.digitChar (k % 10)].all Char.isDigit) = true
  simp [List.all, h10]

theorem formatFix3_decimals (q : ℚ) : ∃ pre post, formatFix3 q = pre ++ "." ++ post ∧
    post.length = 3 ∧ post.data.all Char.isDigit = true := by
  refine ⟨(if roundHalfEven (q * 1000) < 0 ∨ (roundHalfEven (q * 1000) = 0 ∧ q < 0)
      then "-" else "") ++ natStr ((roundHalfEven (q * 1000)).natAbs / 1000),
    digit3 ((roundHalfEven (q * 1000)).natAbs % 1000), ?_, (digit3_spec _).1, (digit3_spec _).2⟩
  simp only [formatFix3, String.append_assoc]

theorem fockBody_ok_bounds {pd : List (List ℚ)} {mean : List ℚ} {xl : List String}
    {numplots idx n : ℕ} {chart c : FockChart}
    (h : fockBody pd mean xl numplots idx n chart = .ok c) :
    n < pd.length ∧ n < mean.length := by
  simp only [fockBody, bindOkIff] at h
  obtain ⟨d1, h1, h⟩ := h
  obtain ⟨d2, h2, h⟩ := h
  obtain ⟨d3, h3, h⟩ := h
  obtain ⟨ys, hys, h⟩ := h
  obtain ⟨d4, h4, h⟩ := h
  refine ⟨pyGet_ok_bound hys, ?_⟩
  by_cases hidx : idx = 0
  · rw [if_pos hidx] at h
    simp only [bindOkIff, okBind] at h
    obtain ⟨d5, h5, h⟩ := h
    obtain ⟨d6, h6, h⟩ := h
    obtain ⟨d7, h7, h⟩ := h
    obtain ⟨mv, hmv, h⟩ := h
    exact pyGet_ok_bound hmv
  · rw [if_neg hidx] at h
    simp only [bindOkIff, okBind] at h
    obtain ⟨prev, hprev, h⟩ := h
    obtain ⟨d5, h5, h⟩ := h
    obtain ⟨d6, h6, h⟩ := h
    obtain ⟨d7, h7, h⟩ := h
    obtain ⟨mv, hmv, h⟩ := h
    exact pyGet_ok_bound hmv

theorem fockBody_err (pd : List (List ℚ)) (mean : List ℚ) (xl : List String)
    (numplots idx n : ℕ) (chart : FockChart)
    (h : pd.length ≤ n ∨ mean.length ≤ n) :
    ∃ e, fockBody pd mean xl numplots idx n chart = .error e := by
  cases hres : fockBody pd mean xl numplots idx n chart with
  | ok c =>
    have := fockBody_ok_bounds hres
    omega
  | error e => exact ⟨e, rfl⟩

theorem fockLoop_err (pd : List (List ℚ)) (mean : List ℚ) (xl : List String) (numplots : ℕ) :
    ∀ (l : List ℕ) (k : ℕ) (chart : FockChart),
      (∃ m ∈ l, pd.length ≤ m ∨ mean.length ≤ m) →
      ∃ e, fockLoop pd mean xl numplots l k chart = .error e := by
  intro l
  induction l with
  | nil =>
    intro k chart h
    simp at h
  | cons m rest ih =>
    intro k chart h
    simp only [fockLoop]
    cases hres : fockBody pd mean xl numplots k m chart with
    | error e => exact ⟨e, rfl⟩
    | ok c =>
      rcases h with ⟨m', hm', hoob⟩
      rcases List.mem_cons.1 hm' with rfl | hmem
      · have := fockBody_ok_bounds hres
        omega
      · simp only [okBind]
        exact ih (k + 1) c ⟨m', hmem, hoob⟩

/-! Section: The claims -/

/-- C10: for `modes = []`, `generate_fock_chart` succeeds and returns the
template with an empty `data` sequence and its annotation list untouched (one
seed annotation stays one annotation); only the primary x-axis `type`, the
fixed chart title and the global font color are written — no domain, no
synthetic axis name, no annotation `text`/`x`. -/
theorem c10_empty_modes (t : FockChart) (pd : List (List ℚ)) (mean : List ℚ) (xl : List String) :
    generate_fock_chart t [] pd mean xl
      = .ok { t with
          data := [],
          layout := { t.layout with
            xaxis := { t.layout.xaxis with type := some "category" },
            title := some "Marginal Fock state probabilities",
            font := some { color := some textcolor } } } := rfl

/-- C3: two mode lists that are permutations of each other (with the other
inputs fixed) give deep-equal `generate_fock_chart` results: the builder only
consumes `sorted(modes)` and `len(modes)`. -/
theorem c3_panel_order_invariance (t : FockChart) (modes₁ modes₂ : List ℕ)
    (pd : List (List ℚ)) (mean : List ℚ) (xl : List String) (h : modes₁.Perm modes₂) :
    generate_fock_chart t modes₁ pd mean xl = generate_fock_chart t modes₂ pd mean xl := by
  have hsort : pySorted modes₁ = pySorted modes₂ := by
    apply List.eq_of_perm_of_sorted
      ((List.perm_insertionSort _ _).trans (h.trans (List.perm_insertionSort _ _).symm))
      (List.sorted_insertionSort _ _) (List.sorted_insertionSort _ _)
  have hlen : modes₁.length = modes₂.length := h.length_eq
  simp only [generate_fock_chart, hsort, hlen]

/-- C3 witness: `modes = [2,0,1]` and `modes = [0,1,2]` give the same chart. -/
theorem c3_witness : ([2, 0, 1] : List ℕ).Perm [0, 1, 2] ∧
    generate_fock_chart barchartDefault [2, 0, 1] [[1], [1], [1]] [0, 0, 0] ["|0>"]
      = generate_fock_chart barchartDefault [0, 1, 2] [[1], [1], [1]] [0, 0, 0] ["|0>"] :=
  ⟨by decide, c3_panel_order_invariance _ _ _ _ _ _ (by decide)⟩

/-- C1 counterexample: the claim says the template is deep-equal to its value
before the call.  In the source `generate_fock_chart` mutates the caller's
`chart` in place (it contains no copy) and returns the same object, so the
template after a successful call is the returned chart — and already at
`modes = [0]` that differs from the template (e.g. its `title` is written). -/
theorem c1_template_mutated_cex :
    templateAfterFock barchartDefault [0] [[1]] [0] ["|0>"] ≠ some barchartDefault ∧
    (templateAfterFock barchartDefault [0] [[1]] [0] ["|0>"]).isSome = true := by
  constructor
  · intro hcontra
    have h1 : (templateAfterFock barchartDefault [0] [[1]] [0] ["|0>"]).map
        (fun c => c.layout.title) = some (some "Marginal Fock state probabilities") := by decide
    rw [hcontra] at h1
    exact absurd h1 (by decide)
  · decide

/-- C1 (amended): `generate_fock_chart` performs no copy: it mutates the
caller-supplied template in place and returns it, so after a successful call
the template holds exactly the returned ChartSpec, whose `data` list is
determined by `modes`, `photonDists` and `xlabels` alone (the template's
previous `data` is discarded).  Callers must deep-copy shared defaults
themselves, as `plot_fock` does with `barchartDefault`. -/
theorem c1_no_copy_amended (t : FockChart) (seed : FockAnnot) (modes : List ℕ)
    (pd : List (List ℚ)) (mean : List ℚ) (xl : List String)
    (hm : modes ≠ []) (hann : t.layout.annotations = [seed]) (hx : t.layout.extraXAxes = [])
    (hB : ∀ m ∈ modes, m < pd.length ∧ m < mean.length) :
    ∃ c, generate_fock_chart t modes pd mean xl = .ok c ∧
      templateAfterFock t modes pd mean xl = some c ∧
      c.data = fockDataOf pd xl (pySorted modes) := by
  refine ⟨fockResult t seed modes pd mean xl,
    generate_fock_chart_eq t seed modes pd mean xl hm hann hx hB, ?_, rfl⟩
  show (generate_fock_chart t modes pd mean xl).toOption = _
  rw [generate_fock_chart_eq t seed modes pd mean xl hm hann hx hB]
  rfl

/-- C1 witness: the amended statement at a concrete valid call. -/
theorem c1_amended_witness :
    ∃ c, generate_fock_chart barchartDefault [0, 1] [[1], [1]] [0, 0] ["|0>"] = .ok c ∧
      templateAfterFock barchartDefault [0, 1] [[1], [1]] [0, 0] ["|0>"] = some c ∧
      c.data = fockDataOf [[1], [1]] ["|0>"] (pySorted [0, 1]) :=
  c1_no_copy_amended barchartDefault
    { showarrow := some false, yanchor := some "bottom", xref := some "paper",
      xanchor := some "center", yref := some "paper", text := some "",
      y := some 1, x := some 0, font := some { size := some 16 } }
    [0, 1] [[1], [1]] [0, 0] ["|0>"] (by decide) rfl rfl (by decide)

/-- C6: the single surface trace of `generate_wigner_chart` always carries the
fixed five-stop colorscale at fractions 0, 1/4, 1/2, 3/4, 1 mapped to purple,
red, yellow, green, blue, and `cmin = -1/π`, `cmax = 1/π`, independently of
the field contents. -/
theorem c6_colorscale_fixed (field : List (List ℚ)) (xvec pvec : List ℚ) (ct : Bool) :
    ∃ tr, (generate_wigner_chart field xvec pvec ct).data = [tr] ∧
      tr.colorscale = [(0, "purple"), (1/4, "red"), (1/2, "yellow"), (3/4, "green"), (1, "blue")] ∧
      tr.colorscale.length = 5 ∧
      tr.cmin = some (-(1 / Real.pi)) ∧ tr.cmax = some (1 / Real.pi) :=
  ⟨_, rfl, rfl, rfl, rfl, rfl⟩

/-- C7: the outputs of `generate_wigner_chart` with `contours = true` and
`contours = false` differ only in the nested contour-projection visibility
flag `contours.z.show` of the surface trace; every other field is equal. -/
theorem c7_contours_only_toggle (field : List (List ℚ)) (xvec pvec : List ℚ) :
    generate_wigner_chart field xvec pvec true
        = setContoursShow (generate_wigner_chart field xvec pvec false) true ∧
      generate_wigner_chart field xvec pvec false
        = setContoursShow (generate_wigner_chart field xvec pvec true) false ∧
      ∀ b, ∃ tr, (generate_wigner_chart field xvec pvec b).data = [tr] ∧
        tr.contours.z.show_ = some b :=
  ⟨rfl, rfl, fun _ => ⟨_, rfl, rfl⟩⟩

/-- C9: when plotly is unavailable, `_get_plotly` raises — but because the
source executes `raise (plotly_error) from e` with `plotly_error` a `str`,
what reaches the caller is `TypeError("exceptions must derive from
BaseException")`, not a descriptive `ImportError` carrying the installation
guidance in `plotly_error`. -/
theorem c9_plotly_error_is_typeerror :
    _get_plotly false = .error (.typeError "exceptions must derive from BaseException") ∧
    (∀ msg, _get_plotly false ≠ .error (.importError msg)) ∧
    _get_plotly true = .ok () ∧
    "exceptions must derive from BaseException" ≠ plotly_error := by
  refine ⟨rfl, ?_, rfl, by decide⟩
  intro msg h
  simp only [_get_plotly, if_neg] at h
  exact absurd h (by simp)

/-! Section: Domain partition arithmetic -/

theorem panelGapL_zero : panelGapL 0 = 0 := by simp [panelGapL]

theorem panelGapL_pos (idx : ℕ) (h : idx ≠ 0) : panelGapL idx = 1/100 := by
  simp [panelGapL, h]

theorem panelGapR_last (n : ℕ) : panelGapR n (n - 1) = 0 := by simp [panelGapR]

theorem panelGapR_mid (n idx : ℕ) (h : idx ≠ n - 1) : panelGapR n idx = 1/100 := by
  simp [panelGapR, h]

theorem panelLow_zero (n : ℕ) : panelLow n 0 = 0 := by
  simp [panelLow, panelGapL]

theorem panelLow_eq (n idx : ℕ) (h : idx ≠ 0) : panelLow n idx = (idx : ℚ) / n + 1/100 := by
  rw [panelLow, panelGapL_pos idx h]

theorem panelHigh_eq (n idx : ℕ) (h : idx ≠ n - 1) :
    panelHigh n idx = ((idx : ℚ) + 1) / n - 1/100 := by
  rw [panelHigh, panelGapR_mid n idx h]

theorem panelHigh_last (n : ℕ) (hn : 1 ≤ n) : panelHigh n (n - 1) = 1 := by
  have hN : (0:ℚ) < n := by exact_mod_cast Nat.pos_of_ne_zero (by omega)
  rw [panelHigh, panelGapR_last, sub_zero,
    show ((n - 1 : ℕ) : ℚ) = (n : ℚ) - 1 by push_cast [hn]; ring]
  field_simp

theorem panelSet_adjacent_disjoint (n idx : ℕ) (h : idx + 1 < n) :
    panelSet n idx ∩ panelSet n (idx + 1) = ∅ := by
  apply Set.eq_empty_iff_forall_not_mem.2
  rintro x ⟨⟨_, hxh⟩, hxl, _⟩
  rw [panelHigh_eq n idx (by omega)] at hxh
  rw [panelLow_eq n (idx + 1) (by omega)] at hxl
  push_cast at hxl
  linarith

theorem icc_subset_domainsWithSeams (n : ℕ) (hn : 1 ≤ n) :
    Set.Icc (0:ℚ) 1 ⊆ domainsWithSeams n := by
  intro x hx
  obtain ⟨hx0, hx1⟩ := hx
  have hN : (0:ℚ) < n := by exact_mod_cast Nat.pos_of_ne_zero (by omega)
  obtain ⟨idx, hd⟩ : ∃ idx, idx = min ⌊x * (n:ℚ)⌋₊ (n - 1) := ⟨_, rfl⟩
  have hmin1 : idx ≤ n - 1 := by rw [hd]; exact min_le_right _ _
  have hminf : idx ≤ ⌊x * (n:ℚ)⌋₊ := by rw [hd]; exact min_le_left _ _
  have hidxn : idx < n := by omega
  have ha : (idx : ℚ) / n ≤ x := by
    rw [div_le_iff₀ hN]
    calc (idx : ℚ) ≤ ⌊x * (n:ℚ)⌋₊ := by exact_mod_cast hminf
    _ ≤ x * n := Nat.floor_le (by positivity)
  have hb : x ≤ ((idx : ℚ) + 1) / n := by
    rcases le_or_lt ⌊x * (n:ℚ)⌋₊ (n - 1) with hc | hc
    · have hidxf : idx = ⌊x * (n:ℚ)⌋₊ := by rw [hd]; exact min_eq_left hc
      rw [hidxf, le_div_iff₀ hN]
      have := Nat.lt_floor_add_one (x * n)
      linarith
    · have hidx1 : idx = n - 1 := by rw [hd]; exact min_eq_right hc.le
      rw [hidx1, le_div_iff₀ hN,
        show ((n - 1 : ℕ) : ℚ) + 1 = n by push_cast [hn]; ring]
      calc x * n ≤ 1 * n := mul_le_mul_of_nonneg_right hx1 hN.le
      _ = n := one_mul _
  by_cases hL : panelLow n idx ≤ x
  · by_cases hH : x ≤ panelHigh n idx
    · exact Set.mem_union_left _ (Set.mem_biUnion (Finset.mem_range.2 hidxn) ⟨hL, hH⟩)
    · push_neg at hH
      have hne : idx ≠ n - 1 := by
        intro hcon
        rw [hcon, panelHigh_last n hn] at hH
        linarith
      apply Set.mem_union_right
      refine Set.mem_biUnion
        (show idx + 1 ∈ Finset.Icc 1 (n - 1) from Finset.mem_Icc.2 ⟨by omega, by omega⟩) ?_
      refine ⟨?_, ?_⟩
      · show panelHigh n (idx + 1 - 1) ≤ x
        simpa using hH.le
      · show x ≤ panelLow n (idx + 1)
        rw [panelLow_eq n (idx + 1) (by omega)]
        push_cast
        linarith
  · push_neg at hL
    have hne0 : idx ≠ 0 := by
      intro hcon
      rw [hcon, panelLow_zero] at hL
      linarith
    apply Set.mem_union_right
    refine Set.mem_biUnion
      (show idx ∈ Finset.Icc 1 (n - 1) from Finset.mem_Icc.2 ⟨by omega, by omega⟩) ?_
    refine ⟨?_, hL.le⟩
    show panelHigh n (idx - 1) ≤ x
    rw [panelHigh_eq n (idx - 1) (by omega),
      show ((idx - 1 : ℕ) : ℚ) + 1 = (idx : ℚ) by push_cast [show 1 ≤ idx by omega]; ring]
    linarith

theorem domainsWithSeams_subset_icc (n : ℕ) (hn : 1 ≤ n) (h100 : n ≤ 100) :
    domainsWithSeams n ⊆ Set.Icc (0:ℚ) 1 := by
  have hN : (0:ℚ) < n := by exact_mod_cast Nat.pos_of_ne_zero (by omega)
  intro x hx
  rcases hx with hx | hx
  · rcases Set.mem_iUnion₂.1 hx with ⟨idx, hidx, h1, h2⟩
    have hidxn : idx < n := Finset.mem_range.1 hidx
    have hg1 : (0:ℚ) ≤ panelGapL idx := by
      unfold panelGapL
      split <;> norm_num
    have hg2 : (0:ℚ) ≤ panelGapR n idx := by
      unfold panelGapR
      split <;> norm_num
    have hdiv : (0:ℚ) ≤ (idx : ℚ) / n := by positivity
    have hup : ((idx : ℚ) + 1) / n ≤ 1 := by
      rw [div_le_one hN]
      exact_mod_cast Nat.succ_le_of_lt hidxn
    have hlo : (0:ℚ) ≤ panelLow n idx := by
      rw [panelLow]
      linarith
    have hhi : panelHigh n idx ≤ 1 := by
      rw [panelHigh]
      linarith
    exact ⟨by linarith, by linarith⟩
  · rcases Set.mem_iUnion₂.1 hx with ⟨k, hk, h1, h2⟩
    obtain ⟨hk1, hk2⟩ := Finset.mem_Icc.1 hk
    have hn2 : 2 ≤ n := by omega
    rw [panelHigh_eq n (k - 1) (by omega),
      show ((k - 1 : ℕ) : ℚ) + 1 = (k : ℚ) by push_cast [show 1 ≤ k from hk1]; ring] at h1
    rw [panelLow_eq n k (by omega)] at h2
    have hk1' : (1:ℚ) ≤ (k : ℚ) := by exact_mod_cast hk1
    have hkn : (k : ℚ) ≤ (n : ℚ) - 1 := by
      rw [show ((n : ℚ) - 1) = ((n - 1 : ℕ) : ℚ) by push_cast [hn]; ring]
      exact_mod_cast hk2
    have hdm : (1:ℚ) / n ≤ (k : ℚ) / n := by gcongr
    have hdM : (k : ℚ) / n ≤ ((n : ℚ) - 1) / n := by gcongr
    have h1n : (1:ℚ) / 100 ≤ 1 / n := by
      apply one_div_le_one_div_of_le hN
      exact_mod_cast h100
    have heq : ((n : ℚ) - 1) / n = 1 - 1 / n := by field_simp
    rw [heq] at hdM
    exact ⟨by linarith, by linarith⟩

theorem domainsWithSeams_eq_icc (n : ℕ) (hn : 1 ≤ n) (h100 : n ≤ 100) :
    domainsWithSeams n = Set.Icc (0:ℚ) 1 :=
  Set.Subset.antisymm (domainsWithSeams_subset_icc n hn h100) (icc_subset_domainsWithSeams n hn)

/-- C4: the bar trace at ascending position `idx` takes its y-series from
`photonDists[m]` and its mean caption from `mean[m]` with `m = sorted(modes)[idx]`
— indexed by the raw mode number, not by `idx` — and its x-axis is titled
`"mode m"`. -/
theorem c4_indexed_by_mode (t : FockChart) (seed : FockAnnot) (modes : List ℕ)
    (pd : List (List ℚ)) (mean : List ℚ) (xl : List String)
    (hm : modes ≠ []) (hann : t.layout.annotations = [seed]) (hx : t.layout.extraXAxes = [])
    (hB : ∀ m ∈ modes, m < pd.length ∧ m < mean.length) :
    ∃ c, generate_fock_chart t modes pd mean xl = .ok c ∧
      ∀ idx, idx < modes.length →
        (c.data.getD idx {}).y = some (pd.getD ((pySorted modes).getD idx 0) []) ∧
        (c.layout.annotations.getD idx {}).text
          = some ("Mean: " ++ formatFix3 (mean.getD ((pySorted modes).getD idx 0) 0)) ∧
        ∃ ax, xAxisAt c idx = some ax ∧
          ax.title = some ("mode " ++ natStr ((pySorted modes).getD idx 0)) := by
  refine ⟨fockResult t seed modes pd mean xl,
    generate_fock_chart_eq t seed modes pd mean xl hm hann hx hB, fun idx hidx => ?_⟩
  refine ⟨?_, ?_, ?_⟩
  · rw [fockResult_data_getD t seed modes pd mean xl idx hidx]
    rfl
  · rw [fockResult_ann_getD t seed modes pd mean xl idx hidx]
    rfl
  · exact ⟨_, xAxisAt_fockResult t seed modes pd mean xl idx hidx, rfl⟩

/-- C4 witness: the statement at a concrete valid call with `modes = [1, 0]`. -/
theorem c4_witness :
    ∃ c, generate_fock_chart barchartDefault [1, 0] [[1], [1]] [0, 0] ["|0>"] = .ok c ∧
      ∀ idx, idx < ([1, 0] : List ℕ).length →
        (c.data.getD idx {}).y = some ([[1], [1]].getD ((pySorted [1, 0]).getD idx 0) []) ∧
        (c.layout.annotations.getD idx {}).text
          = some ("Mean: " ++ formatFix3 (([0, 0] : List ℚ).getD ((pySorted [1, 0]).getD idx 0) 0)) ∧
        ∃ ax, xAxisAt c idx = some ax ∧
          ax.title = some ("mode " ++ natStr ((pySorted [1, 0]).getD idx 0)) :=
  c4_indexed_by_mode barchartDefault
    { showarrow := some false, yanchor := some "bottom", xref := some "paper",
      xanchor := some "center", yref := some "paper", text := some "",
      y := some 1, x := some 0, font := some { size := some 16 } }
    [1, 0] [[1], [1]] [0, 0] ["|0>"] (by decide) rfl rfl (by decide)

/-- C5: for a template with exactly one seed annotation and non-empty `modes`,
the output has exactly one annotation per panel; annotation `idx` is the seed
with only `text` (the "Mean: " caption, three decimal places) and `x`
(`idx/n + gapLeft + 0.5/n`) overwritten — equivalently, it copies its
predecessor in the growing list and overwrites those two fields. -/
theorem c5_annotations (t : FockChart) (seed : FockAnnot) (modes : List ℕ)
    (pd : List (List ℚ)) (mean : List ℚ) (xl : List String)
    (hm : modes ≠ []) (hann : t.layout.annotations = [seed]) (hx : t.layout.extraXAxes = [])
    (hB : ∀ m ∈ modes, m < pd.length ∧ m < mean.length) :
    ∃ c, generate_fock_chart t modes pd mean xl = .ok c ∧
      c.layout.annotations.length = modes.length ∧
      (∀ idx, idx < modes.length →
        c.layout.annotations.getD idx {}
          = { seed with
              text := some ("Mean: " ++ formatFix3 (mean.getD ((pySorted modes).getD idx 0) 0)),
              x := some ((idx : ℚ) / modes.length + panelGapL idx + (1/2) / modes.length) }) ∧
      (∀ idx, 1 ≤ idx → idx < modes.length →
        c.layout.annotations.getD idx {}
          = { c.layout.annotations.getD (idx - 1) {} with
              text := some ("Mean: " ++ formatFix3 (mean.getD ((pySorted modes).getD idx 0) 0)),
              x := some ((idx : ℚ) / modes.length + panelGapL idx + (1/2) / modes.length) }) ∧
      (∀ q : ℚ, ∃ pre post, formatFix3 q = pre ++ "." ++ post ∧ post.length = 3 ∧
        post.data.all Char.isDigit = true) := by
  refine ⟨fockResult t seed modes pd mean xl,
    generate_fock_chart_eq t seed modes pd mean xl hm hann hx hB,
    fockResult_ann_length t seed modes pd mean xl, fun idx hidx => ?_, fun idx h1 hidx => ?_,
    formatFix3_decimals⟩
  · rw [fockResult_ann_getD t seed modes pd mean xl idx hidx]
    rfl
  · rw [fockResult_ann_getD t seed modes pd mean xl idx hidx,
      fockResult_ann_getD t seed modes pd mean xl (idx - 1) (by omega)]
    rfl

/-- C5 witness: the statement at a concrete valid call. -/
theorem c5_witness :
    ∃ c, generate_fock_chart barchartDefault [0, 1] [[1], [1]] [0, 0] ["|0>"] = .ok c ∧
      c.layout.annotations.length = ([0, 1] : List ℕ).length ∧
      (∀ idx, idx < ([0, 1] : List ℕ).length →
        c.layout.annotations.getD idx {}
          = { showarrow := some false, yanchor := some "bottom", xref := some "paper",
              xanchor := some "center", yref := some "paper",
              text := some ("Mean: " ++
                formatFix3 (([0, 0] : List ℚ).getD ((pySorted [0, 1]).getD idx 0) 0)),
              y := some 1,
              x := some ((idx : ℚ) / ([0, 1] : List ℕ).length + panelGapL idx
                + (1/2) / ([0, 1] : List ℕ).length),
              font := some { size := some 16 } }) ∧
      (∀ idx, 1 ≤ idx → idx < ([0, 1] : List ℕ).length →
        c.layout.annotations.getD idx {}
          = { c.layout.annotations.getD (idx - 1) {} with
              text := some ("Mean: " ++
                formatFix3 (([0, 0] : List ℚ).getD ((pySorted [0, 1]).getD idx 0) 0)),
              x := some ((idx : ℚ) / ([0, 1] : List ℕ).length + panelGapL idx
                + (1/2) / ([0, 1] : List ℕ).length) }) ∧
      (∀ q : ℚ, ∃ pre post, formatFix3 q = pre ++ "." ++ post ∧ post.length = 3 ∧
        post.data.all Char.isDigit = true) :=
  c5_annotations barchartDefault
    { showarrow := some false, yanchor := some "bottom", xref := some "paper",
      xanchor := some "center", yref := some "paper", text := some "",
      y := some 1, x := some 0, font := some { size := some 16 } }
    [0, 1] [[1], [1]] [0, 0] ["|0>"] (by decide) rfl rfl (by decide)

/-- C8 (amended): an out-of-bounds `modes` entry makes `generate_fock_chart`
fail with an `IndexError` instead of returning a chart; `generate_wigner_chart`
however performs no validation at all — whatever the shape of `field`, it is
embedded verbatim as the trace's `z` next to `x := xvec`, `y := pvec`, and a
ChartSpec is returned. -/
theorem c8_amended_error_handling (t : FockChart) (modes : List ℕ) (pd : List (List ℚ))
    (mean : List ℚ) (xl : List String) (field : List (List ℚ)) (xvec pvec : List ℚ) (ct : Bool)
    (h : ∃ m ∈ modes, pd.length ≤ m ∨ mean.length ≤ m) :
    (∃ e, generate_fock_chart t modes pd mean xl = .error e) ∧
    ∃ tr, (generate_wigner_chart field xvec pvec ct).data = [tr] ∧
      tr.z = field ∧ tr.x = xvec ∧ tr.y = pvec := by
  constructor
  · rcases h with ⟨m, hm, hoob⟩
    have hs : m ∈ pySorted modes := (List.perm_insertionSort (· ≤ ·) modes).mem_iff.2 hm
    rcases fockLoop_err pd mean xl modes.length (pySorted modes) 0
      { t with data := List.replicate modes.length {} } ⟨m, hs, hoob⟩ with ⟨e, he⟩
    refine ⟨e, ?_⟩
    simp only [generate_fock_chart]
    rw [he]
    rfl
  · exact ⟨_, rfl, rfl, rfl, rfl⟩

/-- C8 counterexample: `generate_wigner_chart` silently tolerates a field of
the wrong shape (a 1×1 field with length-2 axes yields a well-formed chart
whose `z` has 1 row against 2 x-samples), while the claim says the call should
fail; the fock builder, by contrast, does fail on an out-of-bounds mode. -/
theorem c8_wigner_no_validation_cex :
    ((generate_wigner_chart [[5]] [0, 1] [0, 1] true).data.map
        fun tr => (tr.z, tr.x, tr.z.length, tr.x.length)) = [([[5]], [0, 1], 1, 2)] ∧
    (1 : ℕ) ≠ 2 ∧
    (generate_fock_chart barchartDefault [5] [[1]] [0] ["|0>"]).isOk = false :=
  ⟨rfl, by decide, by decide⟩

/-- C8 witness: the amended statement at a concrete out-of-bounds call. -/
theorem c8_witness :
    (∃ e, generate_fock_chart barchartDefault [5] [[1]] [0] ["|0>"] = .error e) ∧
    ∃ tr, (generate_wigner_chart [[5]] [0, 1] [0, 1] true).data = [tr] ∧
      tr.z = [[5]] ∧ tr.x = [0, 1] ∧ tr.y = [0, 1] :=
  c8_amended_error_handling barchartDefault [5] [[1]] [0] ["|0>"] [[5]] [0, 1] [0, 1] true
    ⟨5, by decide, Or.inl (by decide)⟩

/-- C2 (amended): panel `idx` of `n` occupies the x-domain
`[idx/n + gapLeft, (idx+1)/n - gapRight]` with the 0.01 gaps suppressed at the
outer edges; adjacent panel domains never overlap, the first panel's low end
is 0 and the last panel's high end is 1; the panel domains together with the
seams always cover `[0,1]`, and for `n ≤ 100` the union is exactly `[0,1]`
(for larger `n` the seam intervals overspill `[0,1]`, see the
counterexample). -/
theorem c2_domain_partition (t : FockChart) (seed : FockAnnot) (modes : List ℕ)
    (pd : List (List ℚ)) (mean : List ℚ) (xl : List String)
    (hm : modes ≠ []) (hann : t.layout.annotations = [seed]) (hx : t.layout.extraXAxes = [])
    (hB : ∀ m ∈ modes, m < pd.length ∧ m < mean.length) :
    ∃ c, generate_fock_chart t modes pd mean xl = .ok c ∧
      (∀ idx, idx < modes.length → ∃ ax, xAxisAt c idx = some ax ∧
        ax.domain = some (panelLow modes.length idx, panelHigh modes.length idx)) ∧
      (∀ idx, idx + 1 < modes.length →
        panelSet modes.length idx ∩ panelSet modes.length (idx + 1) = ∅) ∧
      panelLow modes.length 0 = 0 ∧
      panelHigh modes.length (modes.length - 1) = 1 ∧
      Set.Icc (0:ℚ) 1 ⊆ domainsWithSeams modes.length ∧
      (modes.length ≤ 100 → domainsWithSeams modes.length = Set.Icc (0:ℚ) 1) := by
  have hn : 1 ≤ modes.length := List.length_pos.2 hm
  exact ⟨fockResult t seed modes pd mean xl,
    generate_fock_chart_eq t seed modes pd mean xl hm hann hx hB,
    fun idx hidx => ⟨_, xAxisAt_fockResult t seed modes pd mean xl idx hidx, rfl⟩,
    fun idx h => panelSet_adjacent_disjoint modes.length idx h,
    panelLow_zero modes.length,
    panelHigh_last modes.length hn,
    icc_subset_domainsWithSeams modes.length hn,
    fun h100 => domainsWithSeams_eq_icc modes.length hn h100⟩

/-- C2 counterexample: the claimed reconstruction of `[0,1]` from the panel
domains and the 0.01 seams fails for a mode list of length 101: the seam
between the first two panels starts at `1/101 - 1/100 < 0`, so the union
strictly exceeds `[0,1]`. -/
theorem c2_reconstruction_cex :
    (List.range 101).length = 101 ∧ domainsWithSeams 101 ≠ Set.Icc (0:ℚ) 1 := by
  refine ⟨by decide, fun hcontra => ?_⟩
  have hmem : (1/101 - 1/100 : ℚ) ∈ domainsWithSeams 101 := by
    apply Set.mem_union_right
    refine Set.mem_biUnion (show (1:ℕ) ∈ Finset.Icc 1 (101 - 1) from by decide) ?_
    refine ⟨?_, ?_⟩
    · show panelHigh 101 (1 - 1) ≤ 1/101 - 1/100
      rw [panelHigh_eq 101 0 (by omega)]
      norm_num
    · show (1/101 - 1/100 : ℚ) ≤ panelLow 101 1
      rw [panelLow_eq 101 1 (by omega)]
      norm_num
  rw [hcontra] at hmem
  have h0 := hmem.1
  norm_num at h0

/-- C2 witness: the amended statement at a concrete valid two-panel call. -/
theorem c2_witness :
    ∃ c, generate_fock_chart barchartDefault [0, 1] [[1], [1]] [0, 0] ["|0>"] = .ok c ∧
      (∀ idx, idx < ([0, 1] : List ℕ).length → ∃ ax, xAxisAt c idx = some ax ∧
        ax.domain = some (panelLow ([0, 1] : List ℕ).length idx,
          panelHigh ([0, 1] : List ℕ).length idx)) ∧
      (∀ idx, idx + 1 < ([0, 1] : List ℕ).length →
        panelSet ([0, 1] : List ℕ).length idx ∩ panelSet ([0, 1] : List ℕ).length (idx + 1) = ∅) ∧
      panelLow ([0, 1] : List ℕ).length 0 = 0 ∧
      panelHigh ([0, 1] : List ℕ).length (([0, 1] : List ℕ).length - 1) = 1 ∧
      Set.Icc (0:ℚ) 1 ⊆ domainsWithSeams ([0, 1] : List ℕ).length ∧
      (([0, 1] : List ℕ).length ≤ 100 →
        domainsWithSeams ([0, 1] : List ℕ).length = Set.Icc (0:ℚ) 1) :=
  c2_domain_partition barchartDefault
    { showarrow := some false, yanchor := some "bottom", xref := some "paper",
      xanchor := some "center", yref := some "paper", text := some "",
      y := some 1, x := some 0, font := some { size := some 16 } }
    [0, 1] [[1], [1]] [0, 0] ["|0>"] (by decide) rfl rfl (by decide)
